import Mathlib

/-!
Verification of the go-gifv-pr command-line pipeline (src/main.go).

The program is a linear pipeline: validate -> fetchFile -> convert -> upload,
with a deferred cleanup registered after validation succeeds.  We embed it
shallowly: strings are lists of characters, every external effect
(filesystem stat/create/remove, the two HTTP calls, the two subprocess
invocations, the JSON decoder) is an oracle input, and each pipeline stage
is a pure function from a converter state and the oracle to a new state, an
optional error message and a trace of observable events.
-/

set_option autoImplicit false

/-! ### String primitives (Go standard-library fragments used by main.go) -/

/-- strings.HasPrefix: does the second list start with the first? -/
def isPre : List Char → List Char → Bool
  | [], _ => true
  | _ :: _, [] => false
  | p :: pr, b :: bs => if p = b then isPre pr bs else false

/-- strings.HasSuffix-style check (used to state "ends with" properties). -/
def isSuf (pat s : List Char) : Bool :=
  isPre pat.reverse s.reverse

/-- Characters treated as white space by strings.TrimSpace (unicode.IsSpace);
we model the Latin-1 white-space set, which covers every use in this program. -/
def goIsSpace (ch : Char) : Bool :=
  ch = ' ' || ch = '\t' || ch = '\n' || ch = (Char.ofNat 11) || ch = (Char.ofNat 12) ||
    ch = '\r' || ch = (Char.ofNat 133) || ch = (Char.ofNat 160)

/-- strings.TrimSpace: drop leading and trailing white space. -/
def trimSpace (s : List Char) : List Char :=
  ((s.dropWhile goIsSpace).reverse.dropWhile goIsSpace).reverse

/-- path.Ext walks the path backwards to the first dot, stopping at a slash.
`pathExtAux acc rev` processes the reversed path `rev`, `acc` holding the
characters already passed over (in forward order). -/
def pathExtAux : List Char → List Char → List Char
  | _, [] => []
  | acc, ch :: rest =>
    if ch = '/' then []
    else if ch = '.' then ch :: acc
    else pathExtAux (ch :: acc) rest

/-- path.Ext: the suffix of the path from the final dot of its final
slash-separated element; empty if there is no such dot. -/
def pathExt (p : List Char) : List Char :=
  pathExtAux [] p.reverse

/-- strings.Replace(s, ".gifv", nw, -1), specialized to the one pattern the
program passes: scan left to right, replacing every non-overlapping
occurrence of the five characters ".gifv" by `nw` and skipping past it. -/
def replaceGifv (nw : List Char) : List Char → List Char
  | [] => []
  | ch1 :: ch2 :: ch3 :: ch4 :: ch5 :: rest5 =>
    if ch1 = '.' ∧ ch2 = 'g' ∧ ch3 = 'i' ∧ ch4 = 'f' ∧ ch5 = 'v' then
      nw ++ replaceGifv nw rest5
    else
      ch1 :: replaceGifv nw (ch2 :: ch3 :: ch4 :: ch5 :: rest5)
  | ch1 :: rest1 => ch1 :: replaceGifv nw rest1

/-! ### Data model: the converter record and the fixed names (src/main.go lines 20-44) -/

/-- The converter struct: flag-derived fields plus the four path fields
mutated by the pipeline stages. -/
structure Converter where
  keepFiles : Bool
  outputMarkdown : Bool
  imageWidth : List Char
  clientID : List Char
  startImage : List Char
  fileToConvert : List Char
  outputImage : List Char
  endImage : List Char
deriving DecidableEq, Repr

/-- Nested data object of the imgur JSON envelope. -/
structure ImgurData where
  link : List Char
  err : List Char
deriving DecidableEq, Repr

/-- The decoded imgur response: a success flag plus the nested data. -/
structure ImgurResponse where
  success : Bool
  data : ImgurData
deriving DecidableEq, Repr

def tempFileName : List Char := "temp_file_to_convert".toList
def outputFileName : List Char := "output".toList
def imgurAPIEndpoint : List Char := "https://api.imgur.com/3/image".toList

/-! ### Observable events and the external-effect oracle -/

/-- Observable side effects: network requests, subprocess invocations, and
file creation/removal. -/
inductive Event where
  | netRequest (method url : List Char)
  | procRun (tool : List Char) (args : List (List Char))
  | fileCreate (path : List Char)
  | fileRemove (path : List Char)
deriving DecidableEq, Repr

/-- Outcomes of every external interaction the program performs.  Errors
carry the message Go's fmt.Sprint(err) would produce. -/
structure Oracle where
  /-- true iff os.Stat on this path fails with an error satisfying os.IsNotExist. -/
  statNotExist : List Char → Bool
  /-- url.Parse(c.startImage): an error, or the Path component of the parsed URL. -/
  urlParse : Except (List Char) (List Char)
  /-- error from os.Create of the temp file; main.go overwrites this err
  before checking it, so the model never reads it. -/
  createErr : Option (List Char)
  /-- error from http.NewRequest for the download; likewise overwritten
  before being checked, so never read. -/
  newReqErr : Option (List Char)
  /-- client.Do for the download GET. -/
  httpGet : Except (List Char) Unit
  /-- io.Copy of the response body into the temp file. -/
  copyBody : Except (List Char) Unit
  /-- exit status of the ffmpeg invocation (error iff non-zero exit). -/
  ffmpegRun : Except (List Char) Unit
  /-- captured stderr of ffmpeg. -/
  ffmpegDiag : List Char
  /-- exit status of the gifsicle invocation. -/
  sickleRun : Except (List Char) Unit
  /-- captured stderr of gifsicle. -/
  sickleDiag : List Char
  /-- os.Open of the optimized output for upload. -/
  openOut : Except (List Char) Unit
  /-- multipart CreateFormFile. -/
  formFile : Except (List Char) Unit
  /-- io.Copy of the file into the form. -/
  copyForm : Except (List Char) Unit
  /-- http.NewRequest for the upload POST (this error IS checked). -/
  postNewReq : Except (List Char) Unit
  /-- client.Do for the upload POST. -/
  httpPost : Except (List Char) Unit
  /-- json.Decode of the upload response body. -/
  decodeResp : Except (List Char) ImgurResponse
  /-- true iff os.Remove of this path returns an error during cleanup. -/
  removeFails : List Char → Bool

/-- Result of one pipeline stage: the updated converter, an optional error,
and the events the stage performed, in order. -/
structure StepResult where
  conv : Converter
  err : Option (List Char)
  events : List Event
deriving DecidableEq, Repr

/-! ### The pipeline stages (src/main.go lines 89-258) -/

/-- validate (main.go 89-95): reject a blank input reference. -/
def validate (c : Converter) : Option (List Char) :=
  if trimSpace c.startImage = [] then
    some "You must provide an input URL or path".toList
  else
    none

/-- fetchRemote (main.go 140-174): parse the URL, rewrite a .gifv extension
to .mp4 in both the URL and the local temp filename, create the temp file,
issue the GET and copy the body.  The os.Create and http.NewRequest errors
are overwritten before being checked in the source and so never influence
the outcome. -/
def fetchRemote (c : Converter) (o : Oracle) : StepResult :=
  match o.urlParse with
  | Except.error e => ⟨c, some e, []⟩
  | Except.ok upath =>
    let ext0 := pathExt upath
    let rewrite := ext0 = ".gifv".toList
    let ext1 := if rewrite then ".mp4".toList else ext0
    let start1 := if rewrite then replaceGifv ".mp4".toList c.startImage
                  else c.startImage
    let ftc := tempFileName ++ ext1
    let c1 : Converter := { c with startImage := start1, fileToConvert := ftc }
    let evs := [Event.fileCreate ftc, Event.netRequest "GET".toList start1]
    match o.httpGet with
    | Except.error e => ⟨c1, some e, evs⟩
    | Except.ok _ =>
      match o.copyBody with
      | Except.error e => ⟨c1, some e, evs⟩
      | Except.ok _ => ⟨c1, none, evs⟩

/-- fetchFile (main.go 123-138): download when the reference starts with
"http", otherwise treat it as a local path and require that it exists. -/
def fetchFile (c : Converter) (o : Oracle) : StepResult :=
  if isPre "http".toList c.startImage then
    fetchRemote c o
  else
    let c1 : Converter := { c with fileToConvert := c.startImage }
    if o.statNotExist c1.fileToConvert then
      ⟨c1, some "Input file does not exist".toList, []⟩
    else
      ⟨c1, none, []⟩

/-- convert (main.go 176-201): run ffmpeg with the fixed argument list, then
gifsicle in batch mode; on non-zero exit the error message is the process
error followed by ": " and the captured stderr. -/
def convert (c : Converter) (o : Oracle) : StepResult :=
  let out := outputFileName ++ ".gif".toList
  let c1 : Converter := { c with outputImage := out }
  let ffArgs : List (List Char) :=
    ["-i".toList, c.fileToConvert, "-pix_fmt".toList, "rgb24".toList,
     "-vf".toList, "scale=".toList ++ c.imageWidth ++ ":-1".toList,
     "-f".toList, "gif".toList, out]
  let ev0 := [Event.procRun "ffmpeg".toList ffArgs]
  match o.ffmpegRun with
  | Except.error e => ⟨c1, some (e ++ ": ".toList ++ o.ffmpegDiag), ev0⟩
  | Except.ok _ =>
    let skArgs : List (List Char) :=
      ["--careful".toList, "-O3".toList, "--batch".toList, out]
    let ev1 := ev0 ++ [Event.procRun "gifsicle".toList skArgs]
    match o.sickleRun with
    | Except.error e => ⟨c1, some (e ++ ": ".toList ++ o.sickleDiag), ev1⟩
    | Except.ok _ => ⟨c1, none, ev1⟩

/-- upload (main.go 203-258): with a blank (after trimming) client ID, skip
the network entirely and report the local file; otherwise build the
multipart body, POST it, decode the JSON envelope and either take the link
or fail with the nested error string. -/
def upload (c : Converter) (o : Oracle) : StepResult :=
  if trimSpace c.clientID = [] then
    ⟨{ c with endImage := c.outputImage }, none, []⟩
  else
    match o.openOut with
    | Except.error e => ⟨c, some e, []⟩
    | Except.ok _ =>
      match o.formFile with
      | Except.error e => ⟨c, some e, []⟩
      | Except.ok _ =>
        match o.copyForm with
        | Except.error e => ⟨c, some e, []⟩
        | Except.ok _ =>
          match o.postNewReq with
          | Except.error e => ⟨c, some e, []⟩
          | Except.ok _ =>
            let evs := [Event.netRequest "POST".toList imgurAPIEndpoint]
            match o.httpPost with
            | Except.error e => ⟨c, some e, evs⟩
            | Except.ok _ =>
              match o.decodeResp with
              | Except.error e => ⟨c, some e, evs⟩
              | Except.ok r =>
                if r.success then ⟨{ c with endImage := r.data.link }, none, evs⟩
                else ⟨c, some ("imgur error: ".toList ++ r.data.err), evs⟩

/-- The files cleanup will try to remove when intermediates are not kept
(main.go 102-113): the resolved input unless it is the original reference,
plus the transcoded output whenever a client ID is configured. -/
def filesToRemove (c : Converter) : List (List Char) :=
  (if c.startImage ≠ c.fileToConvert then [c.fileToConvert] else []) ++
    (if trimSpace c.clientID ≠ [] then [c.outputImage] else [])

/-- One warning line as printed by fmt.Println with two operands (main.go
118); note the source always names c.fileToConvert, whatever file failed. -/
def removeWarning (c : Converter) : List Char :=
  "Could not remove file:  ".toList ++ c.fileToConvert

/-- cleanup (main.go 97-121): returns the removal events and the warning
lines printed for failed removals. -/
def cleanup (c : Converter) (o : Oracle) : List Event × List (List Char) :=
  if c.keepFiles then ([], [])
  else
    ((filesToRemove c).map Event.fileRemove,
     ((filesToRemove c).filter o.removeFails).map (fun _ => removeWarning c))

/-- Result of a whole run of main (main.go 46-87). -/
structure RunResult where
  conv : Converter
  err : Option (List Char)
  events : List Event
  cleanupRan : Bool
  warnings : List (List Char)
  printed : Option (List Char)
deriving DecidableEq, Repr

/-- main (main.go 46-87): validate, then (with cleanup deferred) fetch,
convert, upload, and finally print the resulting reference, in Markdown
form when requested.  The deferred cleanup runs on every path after a
successful validation. -/
def runMain (c : Converter) (o : Oracle) : RunResult :=
  match validate c with
  | some e => ⟨c, some e, [], false, [], none⟩
  | none =>
    let f := fetchFile c o
    match f.err with
    | some e =>
      let cl := cleanup f.conv o
      ⟨f.conv, some e, f.events ++ cl.1, true, cl.2, none⟩
    | none =>
      let cv := convert f.conv o
      match cv.err with
      | some e =>
        let cl := cleanup cv.conv o
        ⟨cv.conv, some e, f.events ++ cv.events ++ cl.1, true, cl.2, none⟩
      | none =>
        let u := upload cv.conv o
        match u.err with
        | some e =>
          let cl := cleanup u.conv o
          ⟨u.conv, some e, f.events ++ cv.events ++ u.events ++ cl.1, true, cl.2, none⟩
        | none =>
          let cl := cleanup u.conv o
          let line := if u.conv.outputMarkdown then
              "![](".toList ++ u.conv.endImage ++ ")".toList
            else u.conv.endImage
          ⟨u.conv, none, f.events ++ cv.events ++ u.events ++ cl.1, true, cl.2, some line⟩

/-- The converter as flag parsing builds it (main.go 46-54): the four path
fields not bound to flags start out empty. -/
def mkConv (keep md : Bool) (width cid start : List Char) : Converter :=
  ⟨keep, md, width, cid, start, [], [], []⟩

/-- The extension fetchRemote resolves from the parsed URL path (".gifv"
rewritten to ".mp4", anything else kept). -/
def resolvedExt (p : List Char) : List Char :=
  if pathExt p = ".gifv".toList then ".mp4".toList else pathExt p

/-- The fetch URL fetchRemote ends up requesting, given the parsed path. -/
def resolvedStart (c : Converter) (p : List Char) : List Char :=
  if pathExt p = ".gifv".toList then replaceGifv ".mp4".toList c.startImage
  else c.startImage

/-! ### Concrete fixtures used to evaluate the theorems on explicit inputs -/

/-- An oracle in which every external interaction succeeds: the URL parses
to the path "/file.gifv", both tools exit 0, and the upload decodes to a
successful envelope with a fixed link. -/
def oBase : Oracle where
  statNotExist := fun _ => false
  urlParse := Except.ok "/file.gifv".toList
  createErr := none
  newReqErr := none
  httpGet := Except.ok ()
  copyBody := Except.ok ()
  ffmpegRun := Except.ok ()
  ffmpegDiag := []
  sickleRun := Except.ok ()
  sickleDiag := []
  openOut := Except.ok ()
  formFile := Except.ok ()
  copyForm := Except.ok ()
  postNewReq := Except.ok ()
  httpPost := Except.ok ()
  decodeResp := Except.ok ⟨true, ⟨"https://x/y.gif".toList, []⟩⟩
  removeFails := fun _ => false

/-- oBase, except that ffmpeg exits non-zero with diagnostics "boom". -/
def oFfmpegFail : Oracle :=
  { oBase with ffmpegRun := Except.error "exit status 1".toList,
               ffmpegDiag := "boom".toList }

/-- oBase, except that every os.Remove during cleanup fails. -/
def oRemoveFail : Oracle :=
  { oBase with removeFails := fun _ => true }

/-- Flag state: local input file, credential "abc" configured. -/
def cLocalCred : Converter :=
  mkConv false false "300".toList "abc".toList "input.mp4".toList

/-- Flag state: remote .gifv input, no credential. -/
def cRemoteGifv : Converter :=
  mkConv false false "300".toList [] "http://i.imgur.com/file.gifv".toList

/-- Flag state: an input that merely starts with "http" but is a plausible
local filename. -/
def cHttpLocal : Converter :=
  mkConv false false "300".toList [] "httpfile.mp4".toList

/-- A converter state as it stands mid-run after resolving the local input
"in.mp4", with credential "abc" and the transcoded output in place. -/
def cAfterRun : Converter :=
  ⟨false, false, "300".toList, "abc".toList, "in.mp4".toList, "in.mp4".toList,
   "output.gif".toList, []⟩

/-! ### Sanity checks that the primitives compute -/

example : pathExt "/a/b.gifv".toList = ".gifv".toList := by decide
example : pathExt "/a/b".toList = [] := by decide
example : pathExt "/a.b/c".toList = [] := by decide
example : replaceGifv ".mp4".toList "http://x/a.gifv".toList = "http://x/a.mp4".toList := by
  decide
example : trimSpace "   ".toList = [] := by decide
example : isSuf ".gifv".toList "/b.gifv".toList = true := by decide

/-! ### Lemmas about the string primitives -/

theorem isPre_iff (pat : List Char) : ∀ s, isPre pat s = true ↔ ∃ u, s = pat ++ u := by
  induction pat with
  | nil =>
    intro s
    simp [isPre]
  | cons p pr ih =>
    intro s
    cases s with
    | nil => simp [isPre]
    | cons b bs =>
      by_cases h : p = b
      · subst h
        simp [isPre, ih bs, List.cons.injEq]
      · apply iff_of_false
        · simp [isPre, h]
        · rintro ⟨u, hu⟩
          rw [List.cons_append] at hu
          injection hu with h1 _
          exact h h1.symm

theorem isSuf_iff (pat s : List Char) : isSuf pat s = true ↔ ∃ t, s = t ++ pat := by
  unfold isSuf
  rw [isPre_iff]
  constructor
  · rintro ⟨u, hu⟩
    refine ⟨u.reverse, ?_⟩
    have := congrArg List.reverse hu
    simpa using this
  · rintro ⟨t, rfl⟩
    exact ⟨t.reverse, by simp⟩

theorem isSuf_trans (a b c : List Char) (hab : isSuf a b = true) (hbc : isSuf b c = true) :
    isSuf a c = true := by
  rw [isSuf_iff] at *
  obtain ⟨t, rfl⟩ := hab
  obtain ⟨u, rfl⟩ := hbc
  exact ⟨u ++ t, by simp⟩

theorem pathExtAux_shape : ∀ rev acc : List Char,
    pathExtAux acc rev = [] ∨
      ∃ pre suf, rev = pre ++ suf ∧ pathExtAux acc rev = pre.reverse ++ acc := by
  intro rev
  induction rev with
  | nil => intro acc; left; rfl
  | cons ch rest ih =>
    intro acc
    by_cases h1 : ch = '/'
    · left
      simp [pathExtAux, h1]
    · by_cases h2 : ch = '.'
      · right
        exact ⟨[ch], rest, rfl, by simp [pathExtAux, h1, h2]⟩
      · rcases ih (ch :: acc) with h | ⟨pre, suf, hrev, hres⟩
        · left
          simp [pathExtAux, h1, h2, h]
        · right
          refine ⟨ch :: pre, suf, by simp [hrev], ?_⟩
          simp [pathExtAux, h1, h2, hres]

theorem pathExt_suffix (p : List Char) (h : pathExt p ≠ []) : ∃ t, p = t ++ pathExt p := by
  rcases pathExtAux_shape p.reverse [] with h0 | ⟨pre, suf, hrev, hres⟩
  · exact absurd h0 h
  · refine ⟨suf.reverse, ?_⟩
    have h2 : pathExt p = pre.reverse := by
      unfold pathExt
      rw [hres]
      simp
    have h3 : p = suf.reverse ++ pre.reverse := by
      have := congrArg List.reverse hrev
      simpa using this
    rw [h2]
    exact h3

theorem pathExtAux_ok : ∀ rev acc : List Char,
    (∀ ch ∈ acc, ch ≠ '.' ∧ ch ≠ '/') →
    (pathExtAux acc rev = [] ∨
      ∃ rest, pathExtAux acc rev = '.' :: rest ∧ ∀ ch ∈ rest, ch ≠ '.' ∧ ch ≠ '/') := by
  intro rev
  induction rev with
  | nil => intro acc _; left; rfl
  | cons ch rest ih =>
    intro acc hacc
    by_cases h1 : ch = '/'
    · left
      simp [pathExtAux, h1]
    · by_cases h2 : ch = '.'
      · right
        refine ⟨acc, ?_, hacc⟩
        simp [pathExtAux, h1, h2]
      · have : ∀ a ∈ ch :: acc, a ≠ '.' ∧ a ≠ '/' := by
          intro a ha
          rcases List.mem_cons.mp ha with rfl | ha2
          · exact ⟨h2, h1⟩
          · exact hacc a ha2
        rcases ih (ch :: acc) this with h | ⟨r, hr, hok⟩
        · left
          simp [pathExtAux, h1, h2, h]
        · right
          exact ⟨r, by simp [pathExtAux, h1, h2, hr], hok⟩

theorem pathExt_shape (p : List Char) :
    pathExt p = [] ∨
      ∃ rest, pathExt p = '.' :: rest ∧ ∀ ch ∈ rest, ch ≠ '.' ∧ ch ≠ '/' :=
  pathExtAux_ok p.reverse [] (by simp)

theorem pathExtAux_through (tail : List Char) : ∀ xs acc : List Char,
    (∀ ch ∈ xs, ch ≠ '.' ∧ ch ≠ '/') →
    pathExtAux acc (xs ++ '.' :: tail) = '.' :: (xs.reverse ++ acc) := by
  intro xs
  induction xs with
  | nil =>
    intro acc _
    simp [pathExtAux]
  | cons ch xtl ih =>
    intro acc hok
    have hch := hok ch (by simp)
    rw [List.cons_append]
    simp only [pathExtAux, if_neg hch.2, if_neg hch.1]
    rw [ih (ch :: acc) (fun a ha => hok a (by simp [ha]))]
    simp

theorem gifv_chars : ".gifv".toList = ['.', 'g', 'i', 'f', 'v'] := by decide

theorem pathExt_gifv_iff (p : List Char) :
    pathExt p = ".gifv".toList ↔ isSuf ".gifv".toList p = true := by
  constructor
  · intro h
    rw [isSuf_iff]
    obtain ⟨t, ht⟩ := pathExt_suffix p (by rw [h]; decide)
    exact ⟨t, by rw [← h]; exact ht⟩
  · intro h
    obtain ⟨t, rfl⟩ := (isSuf_iff _ _).mp h
    unfold pathExt
    have e1 : ".gifv".toList.reverse = ['v', 'f', 'i', 'g', '.'] := by decide
    have e2 : (t ++ ".gifv".toList).reverse = ['v', 'f', 'i', 'g'] ++ '.' :: t.reverse := by
      rw [List.reverse_append, e1]
      simp
    rw [e2, pathExtAux_through t.reverse ['v', 'f', 'i', 'g'] [] (by decide)]
    decide

theorem pathExt_temp_append (p : List Char) :
    pathExt (tempFileName ++ pathExt p) = pathExt p := by
  rcases pathExt_shape p with h | ⟨rest, hres, hok⟩
  · rw [h]
    decide
  · rw [hres]
    unfold pathExt
    have e2 : (tempFileName ++ '.' :: rest).reverse =
        rest.reverse ++ '.' :: tempFileName.reverse := by
      rw [List.reverse_append]
      simp
    rw [e2, pathExtAux_through tempFileName.reverse rest.reverse []
      (fun ch hch => hok ch (List.mem_reverse.mp hch))]
    simp

theorem replaceGifv_suffix (nw : List Char) :
    ∀ (n : Nat) (t : List Char), t.length ≤ n →
      ∃ u, replaceGifv nw (t ++ ".gifv".toList) = u ++ nw := by
  intro n
  induction n with
  | zero =>
    intro t ht
    have ht0 : t = [] := List.length_eq_zero.mp (Nat.le_zero.mp ht)
    subst ht0
    rw [gifv_chars]
    exact ⟨[], by simp [replaceGifv]⟩
  | succ n ih =>
    intro t ht
    rcases t with _ | ⟨a, t'⟩
    · rw [gifv_chars]
      exact ⟨[], by simp [replaceGifv]⟩
    rcases t' with _ | ⟨b, t2⟩
    · rw [gifv_chars]
      exact ⟨[a], by simp [replaceGifv]⟩
    rcases t2 with _ | ⟨c, t3⟩
    · rw [gifv_chars]
      exact ⟨[a, b], by simp [replaceGifv]⟩
    rcases t3 with _ | ⟨d, t4⟩
    · rw [gifv_chars]
      exact ⟨[a, b, c], by simp [replaceGifv]⟩
    rcases t4 with _ | ⟨e, t5⟩
    · rw [gifv_chars]
      exact ⟨[a, b, c, d], by simp [replaceGifv]⟩
    by_cases hcond : a = '.' ∧ b = 'g' ∧ c = 'i' ∧ d = 'f' ∧ e = 'v'
    · obtain ⟨u, hu⟩ := ih t5 (by simp only [List.length_cons] at ht; omega)
      refine ⟨nw ++ u, ?_⟩
      simp only [List.cons_append, replaceGifv, List.append_eq]
      rw [if_pos hcond, hu, List.append_assoc]
    · obtain ⟨u, hu⟩ := ih (b :: c :: d :: e :: t5)
        (by simp only [List.length_cons] at ht ⊢; omega)
      refine ⟨a :: u, ?_⟩
      simp only [List.cons_append, replaceGifv, List.append_eq]
      rw [if_neg hcond]
      simp only [List.cons_append] at hu
      rw [hu]

/-! ### Stage characterizations -/

theorem validate_nonblank (c : Converter) (h : trimSpace c.startImage ≠ []) :
    validate c = none := by
  simp [validate, h]

theorem validate_blank (c : Converter) (h : trimSpace c.startImage = []) :
    validate c = some "You must provide an input URL or path".toList := by
  simp [validate, h]

theorem fetchFile_cases (c : Converter) (o : Oracle) :
    (∃ e, o.urlParse = Except.error e ∧ isPre "http".toList c.startImage = true ∧
      fetchFile c o = ⟨c, some e, []⟩) ∨
    (∃ p, o.urlParse = Except.ok p ∧ isPre "http".toList c.startImage = true ∧
      ∃ err, fetchFile c o =
        ⟨{ c with startImage := resolvedStart c p,
                  fileToConvert := tempFileName ++ resolvedExt p },
         err,
         [Event.fileCreate (tempFileName ++ resolvedExt p),
          Event.netRequest "GET".toList (resolvedStart c p)]⟩) ∨
    (isPre "http".toList c.startImage = false ∧
      ∃ err, fetchFile c o = ⟨{ c with fileToConvert := c.startImage }, err, []⟩) := by
  by_cases h : isPre "http".toList c.startImage = true
  · cases hp : o.urlParse with
    | error e =>
      left
      refine ⟨e, rfl, h, ?_⟩
      unfold fetchFile fetchRemote
      rw [if_pos h, hp]
    | ok p =>
      right; left
      refine ⟨p, rfl, h, ?_⟩
      cases hg : o.httpGet with
      | error e =>
        refine ⟨some e, ?_⟩
        unfold fetchFile fetchRemote
        rw [if_pos h, hp, hg]
        rfl
      | ok u =>
        cases hb : o.copyBody with
        | error e =>
          refine ⟨some e, ?_⟩
          unfold fetchFile fetchRemote
          rw [if_pos h, hp, hg, hb]
          rfl
        | ok v =>
          refine ⟨none, ?_⟩
          unfold fetchFile fetchRemote
          rw [if_pos h, hp, hg, hb]
          rfl
  · right; right
    refine ⟨by simpa using h, ?_⟩
    by_cases hs : o.statNotExist c.startImage = true
    · refine ⟨some "Input file does not exist".toList, ?_⟩
      unfold fetchFile
      rw [if_neg h]
      simp [hs]
    · refine ⟨none, ?_⟩
      unfold fetchFile
      rw [if_neg h]
      simp [hs]

theorem convert_conv (c : Converter) (o : Oracle) :
    (convert c o).conv = { c with outputImage := outputFileName ++ ".gif".toList } := by
  unfold convert
  cases o.ffmpegRun <;> cases o.sickleRun <;> rfl

theorem convert_events_shape (c : Converter) (o : Oracle) :
    ∀ ev ∈ (convert c o).events, ∃ tool args, ev = Event.procRun tool args := by
  unfold convert
  cases o.ffmpegRun <;> cases o.sickleRun <;> intro ev h <;> simp at h
  case error.error => exact ⟨_, _, h⟩
  case error.ok => exact ⟨_, _, h⟩
  case ok.error =>
    rcases h with h | h
    · exact ⟨_, _, h⟩
    · exact ⟨_, _, h⟩
  case ok.ok =>
    rcases h with h | h
    · exact ⟨_, _, h⟩
    · exact ⟨_, _, h⟩

theorem convert_ffmpegFail (c : Converter) (o : Oracle) (e : List Char)
    (he : o.ffmpegRun = Except.error e) :
    convert c o =
      ⟨{ c with outputImage := outputFileName ++ ".gif".toList },
       some (e ++ ": ".toList ++ o.ffmpegDiag),
       [Event.procRun "ffmpeg".toList
         ["-i".toList, c.fileToConvert, "-pix_fmt".toList, "rgb24".toList,
          "-vf".toList, "scale=".toList ++ c.imageWidth ++ ":-1".toList,
          "-f".toList, "gif".toList, outputFileName ++ ".gif".toList]]⟩ := by
  unfold convert
  rw [he]

theorem upload_noCred (c : Converter) (o : Oracle) (h : trimSpace c.clientID = []) :
    upload c o = ⟨{ c with endImage := c.outputImage }, none, []⟩ := by
  unfold upload
  rw [if_pos h]

theorem upload_events_shape (c : Converter) (o : Oracle) :
    (upload c o).events = [] ∨
      (upload c o).events = [Event.netRequest "POST".toList imgurAPIEndpoint] := by
  unfold upload
  by_cases h : trimSpace c.clientID = []
  · rw [if_pos h]
    left
    rfl
  · rw [if_neg h]
    cases o.openOut with
    | error e => left; rfl
    | ok u1 =>
      cases o.formFile with
      | error e => left; rfl
      | ok u2 =>
        cases o.copyForm with
        | error e => left; rfl
        | ok u3 =>
          cases o.postNewReq with
          | error e => left; rfl
          | ok u4 =>
            cases o.httpPost with
            | error e => right; rfl
            | ok u5 =>
              cases o.decodeResp with
              | error e => right; rfl
              | ok r =>
                right
                by_cases hs : r.success = true <;> simp [hs]

theorem cleanup_events_shape (c : Converter) (o : Oracle) :
    ∀ ev ∈ (cleanup c o).1, ∃ f, ev = Event.fileRemove f := by
  unfold cleanup
  by_cases hk : c.keepFiles
  · simp [hk]
  · intro ev h
    simp [hk] at h
    obtain ⟨a, _, ha⟩ := h
    exact ⟨a, ha.symm⟩

theorem fetchFile_pres (c : Converter) (o : Oracle) :
    (fetchFile c o).conv.keepFiles = c.keepFiles ∧
    (fetchFile c o).conv.clientID = c.clientID ∧
    (fetchFile c o).conv.outputMarkdown = c.outputMarkdown ∧
    (fetchFile c o).conv.imageWidth = c.imageWidth ∧
    (fetchFile c o).conv.outputImage = c.outputImage ∧
    (fetchFile c o).conv.endImage = c.endImage := by
  rcases fetchFile_cases c o with ⟨e, _, _, heq⟩ | ⟨p, _, _, err, heq⟩ | ⟨_, err, heq⟩ <;>
    rw [heq] <;> exact ⟨rfl, rfl, rfl, rfl, rfl, rfl⟩

theorem fetchFile_no_post (c : Converter) (o : Oracle) (u : List Char) :
    Event.netRequest "POST".toList u ∉ (fetchFile c o).events := by
  intro hmem
  have hne : ("POST".toList : List Char) ≠ "GET".toList := by decide
  rcases fetchFile_cases c o with ⟨e, _, _, heq⟩ | ⟨p, _, _, err, heq⟩ | ⟨_, err, heq⟩ <;>
    rw [heq] at hmem <;> simp [hne] at hmem

theorem runMain_validateErr (c : Converter) (o : Oracle) (e : List Char)
    (hv : validate c = some e) :
    runMain c o = ⟨c, some e, [], false, [], none⟩ := by
  unfold runMain
  rw [hv]

theorem runMain_fetchErr (c : Converter) (o : Oracle) (e : List Char)
    (hv : validate c = none) (hf : (fetchFile c o).err = some e) :
    runMain c o = ⟨(fetchFile c o).conv, some e,
      (fetchFile c o).events ++ (cleanup (fetchFile c o).conv o).1, true,
      (cleanup (fetchFile c o).conv o).2, none⟩ := by
  unfold runMain
  rw [hv]
  simp only [hf]

theorem runMain_convertErr (c : Converter) (o : Oracle) (e : List Char)
    (hv : validate c = none) (hf : (fetchFile c o).err = none)
    (hc : (convert (fetchFile c o).conv o).err = some e) :
    runMain c o = ⟨(convert (fetchFile c o).conv o).conv, some e,
      (fetchFile c o).events ++ (convert (fetchFile c o).conv o).events ++
        (cleanup (convert (fetchFile c o).conv o).conv o).1, true,
      (cleanup (convert (fetchFile c o).conv o).conv o).2, none⟩ := by
  unfold runMain
  rw [hv]
  simp only [hf, hc]

theorem runMain_uploadErr (c : Converter) (o : Oracle) (e : List Char)
    (hv : validate c = none) (hf : (fetchFile c o).err = none)
    (hc : (convert (fetchFile c o).conv o).err = none)
    (hu : (upload (convert (fetchFile c o).conv o).conv o).err = some e) :
    runMain c o = ⟨(upload (convert (fetchFile c o).conv o).conv o).conv, some e,
      (fetchFile c o).events ++ (convert (fetchFile c o).conv o).events ++
        (upload (convert (fetchFile c o).conv o).conv o).events ++
        (cleanup (upload (convert (fetchFile c o).conv o).conv o).conv o).1, true,
      (cleanup (upload (convert (fetchFile c o).conv o).conv o).conv o).2, none⟩ := by
  unfold runMain
  rw [hv]
  simp only [hf, hc, hu]

theorem runMain_ok (c : Converter) (o : Oracle)
    (hv : validate c = none) (hf : (fetchFile c o).err = none)
    (hc : (convert (fetchFile c o).conv o).err = none)
    (hu : (upload (convert (fetchFile c o).conv o).conv o).err = none) :
    runMain c o = ⟨(upload (convert (fetchFile c o).conv o).conv o).conv, none,
      (fetchFile c o).events ++ (convert (fetchFile c o).conv o).events ++
        (upload (convert (fetchFile c o).conv o).conv o).events ++
        (cleanup (upload (convert (fetchFile c o).conv o).conv o).conv o).1, true,
      (cleanup (upload (convert (fetchFile c o).conv o).conv o).conv o).2,
      some (if (upload (convert (fetchFile c o).conv o).conv o).conv.outputMarkdown then
          "![](".toList ++ (upload (convert (fetchFile c o).conv o).conv o).conv.endImage
            ++ ")".toList
        else (upload (convert (fetchFile c o).conv o).conv o).conv.endImage)⟩ := by
  unfold runMain
  rw [hv]
  simp only [hf, hc, hu]

/-! ### Claims -/

/-- Claim C6: for every input reference that is blank after trimming, the
program reports the validation failure and performs nothing else: the run
produces no events at all (no network, no process, no file creation or
deletion) and cleanup does not run. -/
theorem c6_blank_input (keep md : Bool) (width cid start : List Char) (o : Oracle)
    (h : trimSpace start = []) :
    runMain (mkConv keep md width cid start) o =
      ⟨mkConv keep md width cid start,
       some "You must provide an input URL or path".toList, [], false, [], none⟩ :=
  runMain_validateErr _ o _ (validate_blank _ h)

/-- Witness for C6 at the whitespace-only input. -/
theorem c6_witness : trimSpace "   ".toList = [] ∧
    runMain (mkConv false false "300".toList [] "   ".toList) oBase =
      ⟨mkConv false false "300".toList [] "   ".toList,
       some "You must provide an input URL or path".toList, [], false, [], none⟩ :=
  ⟨by decide, c6_blank_input false false "300".toList [] "   ".toList oBase (by decide)⟩

/-- Claim C9: fetchRemote's outcome never depends on the os.Create or
http.NewRequest errors (both are overwritten before being checked), and it
is an error exactly when URL parsing, the GET round-trip, or the body copy
fails. -/
theorem c9_discarded_errors (c : Converter) (o : Oracle) (ce nr : Option (List Char)) :
    fetchRemote c { o with createErr := ce, newReqErr := nr } = fetchRemote c o ∧
    ((fetchRemote c o).err = none ↔
      (∃ p, o.urlParse = Except.ok p) ∧
        o.httpGet = Except.ok () ∧ o.copyBody = Except.ok ()) := by
  refine ⟨rfl, ?_⟩
  unfold fetchRemote
  cases hp : o.urlParse with
  | error e => simp
  | ok p =>
    cases hg : o.httpGet with
    | error e => simp
    | ok u =>
      cases u
      cases hb : o.copyBody with
      | error e => simp
      | ok v =>
        cases v
        simp

/-- Claim C8: an input is classified remote exactly when it literally
starts with "http": such an input (even "httpfile.mp4") goes down the
download path with no local-existence check, while any other input (for
instance an ftp URL) is treated as a local path whose existence is
checked. -/
theorem c8_http_classification (c : Converter) (o : Oracle) (s : List Char → Bool) :
    (isPre "http".toList c.startImage = true →
      fetchFile c o = fetchRemote c o ∧
      fetchFile c { o with statNotExist := s } = fetchRemote c { o with statNotExist := s }) ∧
    (isPre "http".toList c.startImage = false →
      (fetchFile c o).conv = { c with fileToConvert := c.startImage } ∧
      (fetchFile c o).events = [] ∧
      ((fetchFile c o).err = none ↔ o.statNotExist c.startImage = false)) := by
  constructor
  · intro h
    constructor
    · unfold fetchFile
      rw [if_pos h]
    · unfold fetchFile
      rw [if_pos h]
  · intro h
    have h2 : ¬ isPre "http".toList c.startImage = true := by
      intro hx
      rw [hx] at h
      exact Bool.noConfusion h
    refine ⟨?_, ?_, ?_⟩ <;> unfold fetchFile <;> rw [if_neg h2]
    · by_cases hs : o.statNotExist c.startImage = true <;> simp [hs]
    · by_cases hs : o.statNotExist c.startImage = true <;> simp [hs]
    · by_cases hs : o.statNotExist c.startImage = true <;> simp [hs]

/-- Witness for C8: "httpfile.mp4" is sent down the download path, and the
download outcome ignores the existence oracle entirely. -/
theorem c8_witness : isPre "http".toList cHttpLocal.startImage = true ∧
    fetchFile cHttpLocal oBase = fetchRemote cHttpLocal oBase :=
  ⟨by decide, ((c8_http_classification cHttpLocal oBase (fun _ => true)).1 (by decide)).1⟩

/-- Claim C10: every warning printed for a failed removal during cleanup
names the resolved input path c.fileToConvert, and never the actually
failing file unless that file is c.fileToConvert itself. -/
theorem c10_warning_names_input (c : Converter) (o : Oracle) (w : List Char)
    (hw : w ∈ (cleanup c o).2) :
    w = removeWarning c ∧
      ∀ f : List Char, f ≠ c.fileToConvert →
        w ≠ "Could not remove file:  ".toList ++ f := by
  have hw2 : w = removeWarning c := by
    unfold cleanup at hw
    by_cases hk : c.keepFiles
    · rw [if_pos hk] at hw
      simp at hw
    · rw [if_neg hk] at hw
      simp only [List.mem_map] at hw
      obtain ⟨a, _, ha⟩ := hw
      exact ha.symm
  refine ⟨hw2, ?_⟩
  intro f hf hcon
  rw [hw2] at hcon
  unfold removeWarning at hcon
  exact hf (List.append_cancel_left hcon).symm

/-- Witness for C10: the removal of "output.gif" fails, yet the warning
names the resolved input "in.mp4". -/
theorem c10_witness :
    "Could not remove file:  in.mp4".toList ∈ (cleanup cAfterRun oRemoveFail).2 ∧
    "Could not remove file:  in.mp4".toList = removeWarning cAfterRun :=
  ⟨by decide, (c10_warning_names_input cAfterRun oRemoveFail _ (by decide)).1⟩

/-- Claim C7: on a successful transcoder stage the two invocations carry
exactly the fixed parameters: ffmpeg with -pix_fmt rgb24, -vf
scale=<width>:-1, -f gif and the fixed output name output.gif, then
gifsicle in batch (in-place) mode with --careful and -O3 on that output. -/
theorem c7_convert_args (c : Converter) (o : Oracle) (h : (convert c o).err = none) :
    (convert c o).events =
      [Event.procRun "ffmpeg".toList
        ["-i".toList, c.fileToConvert, "-pix_fmt".toList, "rgb24".toList,
         "-vf".toList, "scale=".toList ++ c.imageWidth ++ ":-1".toList,
         "-f".toList, "gif".toList, outputFileName ++ ".gif".toList],
       Event.procRun "gifsicle".toList
        ["--careful".toList, "-O3".toList, "--batch".toList,
         outputFileName ++ ".gif".toList]] ∧
    (convert c o).conv.outputImage = outputFileName ++ ".gif".toList := by
  unfold convert at h ⊢
  cases hf : o.ffmpegRun with
  | error e =>
    rw [hf] at h
    simp at h
  | ok u =>
    cases hs : o.sickleRun with
    | error e =>
      rw [hf, hs] at h
      simp at h
    | ok v => exact ⟨rfl, rfl⟩

/-- Witness for C7 on the mid-run fixture with an all-ok oracle. -/
theorem c7_witness : (convert cAfterRun oBase).err = none ∧
    (convert cAfterRun oBase).conv.outputImage = outputFileName ++ ".gif".toList :=
  ⟨by decide, (c7_convert_args cAfterRun oBase (by decide)).2⟩

/-- Claim C3: with a configured (non-blank after trimming) credential and an
upload response decoding to the expected envelope: a true success flag sets
the final reference to exactly the nested link with no error; a false flag
fails with a message carrying the nested error string (which the message
contains as a suffix) and leaves the final reference untouched. -/
theorem c3_upload_envelope (c : Converter) (o : Oracle) (r : ImgurResponse)
    (hcid : trimSpace c.clientID ≠ [])
    (h1 : o.openOut = Except.ok ()) (h2 : o.formFile = Except.ok ())
    (h3 : o.copyForm = Except.ok ()) (h4 : o.postNewReq = Except.ok ())
    (h5 : o.httpPost = Except.ok ()) (h6 : o.decodeResp = Except.ok r) :
    (r.success = true →
      (upload c o).err = none ∧ (upload c o).conv.endImage = r.data.link) ∧
    (r.success = false →
      (upload c o).err = some ("imgur error: ".toList ++ r.data.err) ∧
      isSuf r.data.err ("imgur error: ".toList ++ r.data.err) = true ∧
      (upload c o).conv.endImage = c.endImage) := by
  have hupload : upload c o =
      (if r.success = true then
        ⟨{ c with endImage := r.data.link }, none,
         [Event.netRequest "POST".toList imgurAPIEndpoint]⟩
      else
        ⟨c, some ("imgur error: ".toList ++ r.data.err),
         [Event.netRequest "POST".toList imgurAPIEndpoint]⟩) := by
    unfold upload
    rw [if_neg hcid, h1, h2, h3, h4, h5, h6]
  constructor
  · intro hs
    rw [hupload, if_pos hs]
    exact ⟨rfl, rfl⟩
  · intro hs
    have hs2 : ¬ r.success = true := by
      intro hx
      rw [hs] at hx
      exact Bool.noConfusion hx
    rw [hupload, if_neg hs2]
    exact ⟨rfl, (isSuf_iff _ _).mpr ⟨"imgur error: ".toList, rfl⟩, rfl⟩

/-- Witness for C3 on the successful envelope of the base oracle. -/
theorem c3_witness : trimSpace cAfterRun.clientID ≠ [] ∧
    (upload cAfterRun oBase).conv.endImage = "https://x/y.gif".toList :=
  ⟨by decide,
   ((c3_upload_envelope cAfterRun oBase ⟨true, ⟨"https://x/y.gif".toList, []⟩⟩
      (by decide) rfl rfl rfl rfl rfl rfl).1 rfl).2⟩

/-- Claim C2: when the parsed URL path ends in ".gifv", fetchRemote rewrites
both the fetch URL (whenever the URL ends with its path, the rewritten URL
ends in ".mp4") and the saved local filename to the ".mp4" extension; for
every other parsed path the saved filename's extension equals the path's
extension unchanged. -/
theorem c2_gifv_rewrite (c : Converter) (o : Oracle) (p : List Char)
    (hp : o.urlParse = Except.ok p) :
    (isSuf ".gifv".toList p = true →
      (fetchRemote c o).conv.fileToConvert = tempFileName ++ ".mp4".toList ∧
      (fetchRemote c o).conv.startImage = replaceGifv ".mp4".toList c.startImage ∧
      (isSuf p c.startImage = true →
        isSuf ".mp4".toList (fetchRemote c o).conv.startImage = true)) ∧
    (isSuf ".gifv".toList p = false →
      (fetchRemote c o).conv.startImage = c.startImage ∧
      (fetchRemote c o).conv.fileToConvert = tempFileName ++ pathExt p ∧
      pathExt (fetchRemote c o).conv.fileToConvert = pathExt p) := by
  have hconv : (fetchRemote c o).conv =
      { c with startImage := resolvedStart c p,
               fileToConvert := tempFileName ++ resolvedExt p } := by
    unfold fetchRemote
    rw [hp]
    cases o.httpGet with
    | error e => rfl
    | ok u =>
      cases o.copyBody with
      | error e => rfl
      | ok v => rfl
  constructor
  · intro hsuf
    have hext : pathExt p = ".gifv".toList := (pathExt_gifv_iff p).mpr hsuf
    rw [hconv]
    refine ⟨?_, ?_, ?_⟩
    · show tempFileName ++ resolvedExt p = tempFileName ++ ".mp4".toList
      unfold resolvedExt
      rw [if_pos hext]
    · show resolvedStart c p = replaceGifv ".mp4".toList c.startImage
      unfold resolvedStart
      rw [if_pos hext]
    · intro hps
      show isSuf ".mp4".toList (resolvedStart c p) = true
      have hstart : isSuf ".gifv".toList c.startImage = true :=
        isSuf_trans ".gifv".toList p c.startImage hsuf hps
      obtain ⟨t, ht⟩ := (isSuf_iff _ _).mp hstart
      obtain ⟨u, hu⟩ := replaceGifv_suffix ".mp4".toList t.length t le_rfl
      unfold resolvedStart
      rw [if_pos hext, ht, hu]
      exact (isSuf_iff _ _).mpr ⟨u, rfl⟩
  · intro hsuf
    have hext : pathExt p ≠ ".gifv".toList := by
      intro hx
      have hx2 := (pathExt_gifv_iff p).mp hx
      rw [hx2] at hsuf
      exact Bool.noConfusion hsuf
    rw [hconv]
    refine ⟨?_, ?_, ?_⟩
    · show resolvedStart c p = c.startImage
      unfold resolvedStart
      rw [if_neg hext]
    · show tempFileName ++ resolvedExt p = tempFileName ++ pathExt p
      unfold resolvedExt
      rw [if_neg hext]
    · show pathExt (tempFileName ++ resolvedExt p) = pathExt p
      unfold resolvedExt
      rw [if_neg hext]
      exact pathExt_temp_append p

/-- Witness for C2 at a concrete imgur-style .gifv URL: the saved filename
becomes temp_file_to_convert.mp4 and the fetch URL ends in .mp4. -/
theorem c2_witness :
    isSuf ".gifv".toList "/file.gifv".toList = true ∧
    (fetchRemote cRemoteGifv oBase).conv.fileToConvert = tempFileName ++ ".mp4".toList ∧
    (fetchRemote cRemoteGifv oBase).conv.startImage = "http://i.imgur.com/file.mp4".toList :=
  ⟨by decide,
   ((c2_gifv_rewrite cRemoteGifv oBase "/file.gifv".toList rfl).1 (by decide)).1,
   by decide⟩

theorem fetch_success_shape (c : Converter) (o : Oracle)
    (h : (fetchFile c o).err = none) :
    (fetchFile c o).conv.startImage = (fetchFile c o).conv.fileToConvert ∨
      ∃ ext, (fetchFile c o).conv.fileToConvert = tempFileName ++ ext := by
  rcases fetchFile_cases c o with ⟨e, _, _, heq⟩ | ⟨p, _, _, err, heq⟩ | ⟨_, err, heq⟩
  · rw [heq] at h
    exact absurd h (by simp)
  · right
    rw [heq]
    exact ⟨resolvedExt p, rfl⟩
  · left
    rw [heq]

/-- Counterexample to claim C1 as stated: retention was not requested, a
credential is configured, and the transcode fails, so the run aborts before
any upload attempt (the event trace holds no network request at all) — yet
cleanup still removes the transcoded output path output.gif. -/
theorem c1_counterexample :
    cLocalCred.keepFiles = false ∧
    runMain cLocalCred oFfmpegFail =
      ⟨⟨false, false, "300".toList, "abc".toList, "input.mp4".toList,
        "input.mp4".toList, "output.gif".toList, []⟩,
       some "exit status 1: boom".toList,
       [Event.procRun "ffmpeg".toList
         ["-i".toList, "input.mp4".toList, "-pix_fmt".toList, "rgb24".toList,
          "-vf".toList, "scale=300:-1".toList, "-f".toList, "gif".toList,
          "output.gif".toList],
        Event.fileRemove "output.gif".toList],
       true, [], none⟩ ∧
    Event.fileRemove "output.gif".toList ∈ (runMain cLocalCred oFfmpegFail).events := by
  refine ⟨rfl, ?_, ?_⟩ <;> decide

/-- Claim C1 (amended): with retention not requested, cleanup's deletion
set contains the transcoded output path precisely when the trimmed hosting
credential is non-empty, regardless of whether a network publish actually
occurred; in particular a credentialed run that aborts before any upload
attempt still has its transcoded output deleted. -/
theorem c1_amended (c : Converter) (o : Oracle) (hk : c.keepFiles = false)
    (hne : c.fileToConvert ≠ c.outputImage) :
    Event.fileRemove c.outputImage ∈ (cleanup c o).1 ↔ trimSpace c.clientID ≠ [] := by
  have hk2 : ¬ c.keepFiles = true := by
    rw [hk]
    decide
  unfold cleanup
  rw [if_neg hk2]
  show Event.fileRemove c.outputImage ∈ (filesToRemove c).map Event.fileRemove ↔ _
  rw [List.mem_map]
  constructor
  · rintro ⟨a, ha, hae⟩
    have haeq : a = c.outputImage := by
      injection hae
    subst haeq
    intro hcid
    unfold filesToRemove at ha
    have hx2 : ¬ (trimSpace c.clientID ≠ []) := fun hx => hx hcid
    rw [if_neg hx2, List.append_nil] at ha
    by_cases hsf : c.startImage ≠ c.fileToConvert
    · rw [if_pos hsf] at ha
      simp at ha
      exact hne ha.symm
    · rw [if_neg hsf] at ha
      simp at ha
  · intro hcid
    refine ⟨c.outputImage, ?_, rfl⟩
    unfold filesToRemove
    apply List.mem_append.mpr
    right
    rw [if_pos hcid]
    exact List.mem_singleton.mpr rfl

/-- Witness for the amended C1 on a concrete mid-run state with a
configured credential. -/
theorem c1_witness : trimSpace cAfterRun.clientID ≠ [] ∧
    Event.fileRemove cAfterRun.outputImage ∈ (cleanup cAfterRun oBase).1 :=
  ⟨by decide, (c1_amended cAfterRun oBase rfl (by decide)).mpr (by decide)⟩

/-- Claim C5: in any run that reaches the transcoder and whose ffmpeg
invocation exits non-zero, the reported error is the process error followed
by ": " and the captured diagnostics, and neither the optimizer nor any
upload POST is ever invoked afterwards. -/
theorem c5_transcode_failure (c : Converter) (o : Oracle) (e : List Char)
    (hv : validate c = none)
    (hf : (fetchFile c o).err = none)
    (he : o.ffmpegRun = Except.error e) :
    (runMain c o).err = some (e ++ ": ".toList ++ o.ffmpegDiag) ∧
    (∀ args, Event.procRun "gifsicle".toList args ∉ (runMain c o).events) ∧
    (∀ u, Event.netRequest "POST".toList u ∉ (runMain c o).events) := by
  have hcf := convert_ffmpegFail (fetchFile c o).conv o e he
  have hcerr : (convert (fetchFile c o).conv o).err =
      some (e ++ ": ".toList ++ o.ffmpegDiag) := by
    rw [hcf]
  have hrun := runMain_convertErr c o _ hv hf hcerr
  refine ⟨by rw [hrun], ?_, ?_⟩
  · intro args hmem
    rw [hrun] at hmem
    rcases List.mem_append.mp hmem with h1 | h1
    · rcases List.mem_append.mp h1 with h2 | h2
      · rcases fetchFile_cases c o with ⟨e2, _, _, heq⟩ | ⟨p, _, _, err2, heq⟩ |
          ⟨_, err2, heq⟩ <;> rw [heq] at h2 <;> simp at h2
      · rw [hcf] at h2
        have hne : ("gifsicle".toList : List Char) ≠ "ffmpeg".toList := by decide
        simp [hne] at h2
    · obtain ⟨f2, hf2⟩ := cleanup_events_shape _ o _ h1
      exact Event.noConfusion hf2
  · intro u hmem
    rw [hrun] at hmem
    rcases List.mem_append.mp hmem with h1 | h1
    · rcases List.mem_append.mp h1 with h2 | h2
      · exact fetchFile_no_post c o u h2
      · rw [hcf] at h2
        simp at h2
    · obtain ⟨f2, hf2⟩ := cleanup_events_shape _ o _ h1
      exact Event.noConfusion hf2

/-- Witness for C5: a credentialed local run whose ffmpeg exits non-zero. -/
theorem c5_witness : validate cLocalCred = none ∧
    (runMain cLocalCred oFfmpegFail).err =
      some ("exit status 1".toList ++ ": ".toList ++ oFfmpegFail.ffmpegDiag) :=
  ⟨by decide,
   (c5_transcode_failure cLocalCred oFfmpegFail "exit status 1".toList
     (by decide) (by decide) rfl).1⟩

theorem output_not_removed (x : Converter)
    (hcid2 : trimSpace x.clientID = [])
    (hsh : x.startImage = x.fileToConvert ∨ ∃ ext, x.fileToConvert = tempFileName ++ ext)
    (hout : x.outputImage = outputFileName ++ ".gif".toList) :
    x.outputImage ∉ filesToRemove x := by
  intro hmem
  unfold filesToRemove at hmem
  have hx2 : ¬ (trimSpace x.clientID ≠ []) := fun hx => hx hcid2
  rw [if_neg hx2, List.append_nil] at hmem
  rcases hsh with hsh | ⟨ext, hsh⟩
  · rw [if_neg (fun hx => hx hsh)] at hmem
    simp at hmem
  · by_cases hsf : x.startImage ≠ x.fileToConvert
    · rw [if_pos hsf] at hmem
      simp at hmem
      rw [hout, hsh] at hmem
      have hlen := congrArg List.length hmem
      rw [List.length_append, List.length_append] at hlen
      have h1 : outputFileName.length = 6 := by decide
      have h2 : tempFileName.length = 20 := by decide
      have h3 : (".gif".toList).length = 4 := by decide
      rw [h1, h2, h3] at hlen
      omega
    · rw [if_neg hsf] at hmem
      simp at hmem

/-- Claim C4: when the hosting credential is blank after trimming, the
publisher performs no POST in any run, and a run that completes reports
the local optimized file as its final reference and keeps that file out of
cleanup's deletion set. -/
theorem c4_no_credential (c : Converter) (o : Oracle)
    (hcid : trimSpace c.clientID = []) :
    (∀ u, Event.netRequest "POST".toList u ∉ (runMain c o).events) ∧
    ((runMain c o).err = none →
      (runMain c o).conv.endImage = (runMain c o).conv.outputImage ∧
      (runMain c o).conv.outputImage ∉ filesToRemove (runMain c o).conv) := by
  have hfcid : (fetchFile c o).conv.clientID = c.clientID := (fetchFile_pres c o).2.1
  have hcvconv := convert_conv (fetchFile c o).conv o
  have hcvcid : (convert (fetchFile c o).conv o).conv.clientID = c.clientID := by
    rw [hcvconv]
    exact hfcid
  have hup := upload_noCred (convert (fetchFile c o).conv o).conv o
    (by rw [hcvcid]; exact hcid)
  have hue : (upload (convert (fetchFile c o).conv o).conv o).err = none := by rw [hup]
  constructor
  · intro u hmem
    cases hv : validate c with
    | some e2 =>
      rw [runMain_validateErr c o e2 hv] at hmem
      simp at hmem
    | none =>
      cases hf : (fetchFile c o).err with
      | some e2 =>
        rw [runMain_fetchErr c o e2 hv hf] at hmem
        rcases List.mem_append.mp hmem with h1 | h1
        · exact fetchFile_no_post c o u h1
        · obtain ⟨f2, hf2⟩ := cleanup_events_shape _ o _ h1
          exact Event.noConfusion hf2
      | none =>
        cases hc : (convert (fetchFile c o).conv o).err with
        | some e2 =>
          rw [runMain_convertErr c o e2 hv hf hc] at hmem
          rcases List.mem_append.mp hmem with h1 | h1
          · rcases List.mem_append.mp h1 with h2 | h2
            · exact fetchFile_no_post c o u h2
            · obtain ⟨tool, args, ht⟩ := convert_events_shape _ o _ h2
              exact Event.noConfusion ht
          · obtain ⟨f2, hf2⟩ := cleanup_events_shape _ o _ h1
            exact Event.noConfusion hf2
        | none =>
          rw [runMain_ok c o hv hf hc hue] at hmem
          rcases List.mem_append.mp hmem with h1 | h1
          · rcases List.mem_append.mp h1 with h2 | h2
            · rcases List.mem_append.mp h2 with h3 | h3
              · exact fetchFile_no_post c o u h3
              · obtain ⟨tool, args, ht⟩ := convert_events_shape _ o _ h3
                exact Event.noConfusion ht
            · rw [hup] at h2
              simp at h2
          · obtain ⟨f2, hf2⟩ := cleanup_events_shape _ o _ h1
            exact Event.noConfusion hf2
  · intro herr
    cases hv : validate c with
    | some e2 =>
      rw [runMain_validateErr c o e2 hv] at herr
      exact absurd herr (by simp)
    | none =>
      cases hf : (fetchFile c o).err with
      | some e2 =>
        rw [runMain_fetchErr c o e2 hv hf] at herr
        exact absurd herr (by simp)
      | none =>
        cases hc : (convert (fetchFile c o).conv o).err with
        | some e2 =>
          rw [runMain_convertErr c o e2 hv hf hc] at herr
          exact absurd herr (by simp)
        | none =>
          rw [runMain_ok c o hv hf hc hue, hup]
          refine ⟨rfl, ?_⟩
          apply output_not_removed
          · show trimSpace (convert (fetchFile c o).conv o).conv.clientID = []
            rw [hcvcid]
            exact hcid
          · rcases fetch_success_shape c o hf with hsh | ⟨ext, hsh⟩
            · left
              show (convert (fetchFile c o).conv o).conv.startImage =
                (convert (fetchFile c o).conv o).conv.fileToConvert
              rw [hcvconv]
              exact hsh
            · right
              refine ⟨ext, ?_⟩
              show (convert (fetchFile c o).conv o).conv.fileToConvert =
                tempFileName ++ ext
              rw [hcvconv]
              exact hsh
          · show (convert (fetchFile c o).conv o).conv.outputImage =
              outputFileName ++ ".gif".toList
            rw [hcvconv]

/-- Witness for C4: the complete no-credential remote run reports the local
optimized file. -/
theorem c4_witness : trimSpace cRemoteGifv.clientID = [] ∧
    (runMain cRemoteGifv oBase).err = none ∧
    (runMain cRemoteGifv oBase).conv.endImage =
      (runMain cRemoteGifv oBase).conv.outputImage :=
  ⟨rfl, by decide, ((c4_no_credential cRemoteGifv oBase rfl).2 (by decide)).1⟩

/-- Witness for C9: changing the discarded os.Create and http.NewRequest
errors does not change the fetch outcome on a concrete input. -/
theorem c9_witness :
    fetchRemote cRemoteGifv
        { oBase with createErr := some "disk full".toList,
                     newReqErr := some "bad request".toList } =
      fetchRemote cRemoteGifv oBase :=
  (c9_discarded_errors cRemoteGifv oBase
    (some "disk full".toList) (some "bad request".toList)).1
